import Mathlib

/-
Shallow embedding of `src/rktest.c` (the rktest unit-test runner core).

The embedding follows the C source:
* `rktest_test_t`, `rktest_suite_t`, `rktest_environment_t`, `rktest_report_t`
  mirror the structs of rktest.c; a fixed-capacity array together with its
  element count (`tests` + `num_tests`, `test_suites` + `num_test_suites`,
  `failed_tests` + `num_failed_tests`) is modelled as a Lean list whose length
  is the count.  `total_num_tests` is an independently incremented counter in
  the C code, so it stays an explicit field.
* The registry (`rktest$data` section between the markers `test_data_begin`
  and `test_data_end`) is a list of slots, each either a real descriptor
  (`some`) or null padding (`none`).  A pointer into that section is the
  suffix of slots from the pointed-to slot up to (excluding) the end marker.
* `exit(1)` in `setup_test_env` is modelled with `Except`: the error value
  records which limit the fatal diagnostic names.
* The global `g_current_test_failed` is threaded explicitly as a `Bool`.
-/

/-- Decidable equality for `Except`, so that concrete runs of the embedded
functions can be checked by `decide`. -/
instance exceptDecEq {ε α : Type} [DecidableEq ε] [DecidableEq α] :
    DecidableEq (Except ε α) := fun x y =>
  match x, y with
  | Except.error a, Except.error b =>
    match decEq a b with
    | isTrue h => isTrue (by rw [h])
    | isFalse h => isFalse (by intro hc; cases hc; exact h rfl)
  | Except.error _, Except.ok _ => isFalse (by intro hc; cases hc)
  | Except.ok _, Except.error _ => isFalse (by intro hc; cases hc)
  | Except.ok a, Except.ok b =>
    match decEq a b with
    | isTrue h => isTrue (by rw [h])
    | isFalse h => isFalse (by intro hc; cases hc; exact h rfl)

/-- Modelled from the spec: the test descriptor struct (declared in the
header rktest.h, which is not part of the given sources).  Per the spec a
descriptor is `{ suite_name, test_name, function }` where the function is a
zero-argument callable that may invoke the "mark current test failed"
operation any number of times (assertion helpers route every failure through
that one signal).  A test body is therefore modelled by the number of times
it calls `rktest_fail_current_test`; an absent function pointer is `none`. -/
structure rktest_test_t where
  suite_name : String
  test_name : String
  func : Option Nat
deriving DecidableEq

structure rktest_suite_t where
  name : String
  tests : List rktest_test_t
deriving DecidableEq

structure rktest_environment_t where
  test_suites : List rktest_suite_t
  total_num_tests : Nat
deriving DecidableEq

structure rktest_report_t where
  num_passed_tests : Nat
  failed_tests : List rktest_test_t
deriving DecidableEq

/-- The `num_tests` field of `rktest_suite_t`: the count kept alongside the
fixed array, i.e. the length of the modelled list. -/
def rktest_suite_t.num_tests (s : rktest_suite_t) : Nat := s.tests.length

/-- The `num_test_suites` field of `rktest_environment_t`. -/
def rktest_environment_t.num_test_suites (e : rktest_environment_t) : Nat :=
  e.test_suites.length

/-- The `num_failed_tests` field of `rktest_report_t`. -/
def rktest_report_t.num_failed_tests (r : rktest_report_t) : Nat :=
  r.failed_tests.length

/-- Modelled from the spec: the two build-time capacity constants of
rktest.h ("Config variables"); their concrete values are configuration, so
they are parameters of the embedding. -/
structure rktest_config where
  RKTEST_MAX_NUM_TEST_SUITES : Nat
  RKTEST_MAX_NUM_TESTS_PER_SUITE : Nat
deriving DecidableEq

/-- The macro RKTEST_MAX_NUM_TESTS, defined as
RKTEST_MAX_NUM_TEST_SUITES * RKTEST_MAX_NUM_TESTS_PER_SUITE. -/
def RKTEST_MAX_NUM_TESTS (cfg : rktest_config) : Nat :=
  cfg.RKTEST_MAX_NUM_TEST_SUITES * cfg.RKTEST_MAX_NUM_TESTS_PER_SUITE

/-- The two fatal `exit(1)` diagnostics of `setup_test_env`, identified by
the limit they name (the per-suite one also prints the suite name). -/
inductive rktest_fatal_error where
  | too_many_suites : rktest_fatal_error
  | too_many_tests_in_suite : String → rktest_fatal_error
deriving DecidableEq

/-- The operation `rktest_fail_current_test`: sets the global failure flag to true
(the flag is passed and returned explicitly). -/
def rktest_fail_current_test (_g_current_test_failed : Bool) : Bool := true

/-- Effect on the failure flag of a test body that calls
`rktest_fail_current_test` the given number of times. -/
def run_func_calls : Nat → Bool → Bool
  | 0, g => g
  | n + 1, g => run_func_calls n (rktest_fail_current_test g)

/-- The `while (it != &test_data_end && *it == NULL) it++;` part of
`skip_until_next_test`: drop leading null padding slots. -/
def dropNones : List (Option rktest_test_t) → List (Option rktest_test_t)
  | [] => []
  | none :: rest => dropNones rest
  | some t :: rest => some t :: rest

/-- The function `skip_until_next_test`: increment the iterator once (drop the current
slot), then keep incrementing while it points at null padding.  On the empty
suffix (iterator already at `test_data_end`) there is nothing to advance
past. -/
def skip_until_next_test (l : List (Option rktest_test_t)) :
    List (Option rktest_test_t) :=
  match l with
  | [] => []
  | _ :: rest => dropNones rest

/-- The function `find_suite_with_name`: first suite (by `strcmp` of names) among
`suites[0 .. num_suites)`.  The C function returns a pointer into the array;
the list analogue is the index. -/
def find_suite_with_name : List rktest_suite_t → String → Option Nat
  | [], _ => none
  | s :: rest, suite_name =>
    if s.name = suite_name then some 0
    else (find_suite_with_name rest suite_name).map (fun i => i + 1)

/-- The function `add_new_suite`: write a fresh suite at index `num_test_suites` and
increment the count; returns the new environment and the index of the new
suite (the C function returns the pointer `&env->test_suites[...]`). -/
def add_new_suite (env : rktest_environment_t) (suite_name : String) :
    rktest_environment_t × Nat :=
  ({ env with test_suites := env.test_suites ++ [{ name := suite_name, tests := [] }] },
   env.test_suites.length)

/-- The function `find_or_add_suite`. -/
def find_or_add_suite (env : rktest_environment_t) (suite_name : String) :
    rktest_environment_t × Nat :=
  match find_suite_with_name env.test_suites suite_name with
  | some i => (env, i)
  | none => add_new_suite env suite_name

/-- Body of the `setup_test_env` loop for one non-null descriptor `*it`:
the suite-capacity check, `find_or_add_suite`, the per-suite capacity check,
then `env->total_num_tests++; suite->tests[suite->num_tests++] = *test;`. -/
def setup_step (cfg : rktest_config) (env : rktest_environment_t)
    (test : rktest_test_t) : Except rktest_fatal_error rktest_environment_t :=
  if env.test_suites.length = cfg.RKTEST_MAX_NUM_TEST_SUITES then
    Except.error rktest_fatal_error.too_many_suites
  else
    match find_or_add_suite env test.suite_name with
    | (env1, i) =>
      let suite := env1.test_suites.getD i { name := "", tests := [] }
      if suite.tests.length = cfg.RKTEST_MAX_NUM_TESTS_PER_SUITE then
        Except.error (rktest_fatal_error.too_many_tests_in_suite suite.name)
      else
        Except.ok
          { test_suites :=
              env1.test_suites.set i { suite with tests := suite.tests ++ [test] },
            total_num_tests := env1.total_num_tests + 1 }

/-- The freshly `malloc`ed and zero-initialised environment. -/
def init_env : rktest_environment_t :=
  { test_suites := [], total_num_tests := 0 }

/-- The `for` loop of `setup_test_env`, parameterised by the iterator: stop
at `test_data_end` (empty suffix); a null slot is padding and is stepped
over (in the C code this stepping happens inside `skip_until_next_test`,
whose return value never points at padding); a non-null slot is processed by
the loop body and the iterator advances with
`it = skip_until_next_test(it)`, i.e. to `dropNones rest`, which skipping
nulls one slot at a time reaches the same way. -/
def setup_loop (cfg : rktest_config) (env : rktest_environment_t) :
    List (Option rktest_test_t) → Except rktest_fatal_error rktest_environment_t
  | [] => Except.ok env
  | none :: rest => setup_loop cfg env rest
  | some t :: rest =>
    match setup_step cfg env t with
    | Except.error e => Except.error e
    | Except.ok env' => setup_loop cfg env' rest

/-- The function `setup_test_env`: the iterator starts at
`skip_until_next_test(&test_data_begin + 1)`.  The argument list is the
registry: the slots strictly between the two markers, so the initial
`skip_until_next_test` drops the first registry slot unconditionally (the
C iterator is incremented before it is first dereferenced). -/
def setup_test_env (cfg : rktest_config) (registry : List (Option rktest_test_t)) :
    Except rktest_fatal_error rktest_environment_t :=
  setup_loop cfg init_env (skip_until_next_test registry)

/-- The descriptors the `setup_test_env` loop actually visits: every
non-null slot strictly after the first registry slot. -/
def visited_tests (registry : List (Option rktest_test_t)) : List rktest_test_t :=
  (registry.drop 1).filterMap id

/-- Proof-side restatement of the builder loop as a fold over the visited
descriptors (related to `setup_loop` by `setup_loop_eq_fold`). -/
def setup_fold (cfg : rktest_config) (env : rktest_environment_t) :
    List rktest_test_t → Except rktest_fatal_error rktest_environment_t
  | [] => Except.ok env
  | t :: ts =>
    match setup_step cfg env t with
    | Except.error e => Except.error e
    | Except.ok env' => setup_fold cfg env' ts

/-- The function `run_test`: invoke the test's function if present (updating the failure
flag), read `test_passed = !g_current_test_failed`, reset the flag to
false, and return `test_passed`.  Result: `(test_passed, new flag)`. -/
def run_test (g_current_test_failed : Bool) (test : rktest_test_t) : Bool × Bool :=
  let g :=
    match test.func with
    | some n => run_func_calls n g_current_test_failed
    | none => g_current_test_failed
  let test_passed := !g
  (test_passed, false)

/-- Inner `foreach` of `run_all_tests`: run each test of a suite in order,
incrementing `num_passed_tests` on pass and appending the descriptor at
`failed_tests[num_failed_tests++]` on failure.  State: (failure flag,
report). -/
def run_suite_tests (g : Bool) (report : rktest_report_t) :
    List rktest_test_t → Bool × rktest_report_t
  | [] => (g, report)
  | test :: rest =>
    let r := run_test g test
    if r.1 then
      run_suite_tests r.2
        { report with num_passed_tests := report.num_passed_tests + 1 } rest
    else
      run_suite_tests r.2
        { report with failed_tests := report.failed_tests ++ [test] } rest

/-- Outer `foreach` of `run_all_tests` over the suites. -/
def run_suites (g : Bool) (report : rktest_report_t) :
    List rktest_suite_t → Bool × rktest_report_t
  | [] => (g, report)
  | suite :: rest =>
    let r := run_suite_tests g report suite.tests
    run_suites r.1 r.2 rest

/-- The function `run_all_tests`: fresh zero report, then both loops.  Returns the final
failure flag together with the report. -/
def run_all_tests (g : Bool) (env : rktest_environment_t) : Bool × rktest_report_t :=
  run_suites g { num_passed_tests := 0, failed_tests := [] } env.test_suites

/-- All tests of an environment in execution order: suites in environment
order, tests in suite order. -/
def tests_in_run_order (env : rktest_environment_t) : List rktest_test_t :=
  (env.test_suites.map (fun s => s.tests)).flatten

/-- Whether a test, started with a clean failure flag, ends up failed:
its body exists and calls `rktest_fail_current_test` at least once. -/
def test_fails (t : rktest_test_t) : Bool :=
  match t.func with
  | none => false
  | some n => decide (0 < n)

/-- The function `rktest_main`: build the environment (a fatal capacity diagnostic
terminates the process before any test runs, hence `Except.error`), run all
tests, and return `tests_passed = (report->num_failed_tests == 0)` together
with the final failure flag.  The colour initialisation and all logging are
external collaborators and have no effect on this state. -/
def rktest_main (cfg : rktest_config) (g_current_test_failed : Bool)
    (registry : List (Option rktest_test_t)) :
    Except rktest_fatal_error (Bool × Bool) :=
  match setup_test_env cfg registry with
  | Except.error e => Except.error e
  | Except.ok env =>
    let r := run_all_tests g_current_test_failed env
    let tests_passed := decide (r.2.num_failed_tests = 0)
    Except.ok (tests_passed, r.1)

/-- One step of first-seen deduplication: keep the name if it is new. -/
def firstSeenStep (acc : List String) (n : String) : List String :=
  if n ∈ acc then acc else acc ++ [n]

/-- The distinct elements of a list of names, in first-seen order. -/
def firstSeen (l : List String) : List String :=
  l.foldl firstSeenStep []

/-- Invariant of the builder loop: after successfully processing the
descriptor list `P` from the empty environment, the environment's suites
carry the distinct suite names of `P` in first-seen order, each suite holds
exactly the descriptors of `P` with its name in `P`-order, the counters are
consistent, and all capacity bounds hold. -/
structure EnvInv (cfg : rktest_config) (P : List rktest_test_t)
    (env : rktest_environment_t) : Prop where
  names_eq : env.test_suites.map (fun s => s.name)
    = firstSeen (P.map (fun t => t.suite_name))
  tests_eq : ∀ (i : Nat) (h : i < env.test_suites.length),
    (env.test_suites.get ⟨i, h⟩).tests
      = P.filter (fun u => decide (u.suite_name = (env.test_suites.get ⟨i, h⟩).name))
  total_eq : env.total_num_tests = P.length
  total_sum : env.total_num_tests = (env.test_suites.map (fun s => s.tests.length)).sum
  suites_le : env.test_suites.length ≤ cfg.RKTEST_MAX_NUM_TEST_SUITES
  tests_le : ∀ (i : Nat) (h : i < env.test_suites.length),
    (env.test_suites.get ⟨i, h⟩).tests.length ≤ cfg.RKTEST_MAX_NUM_TESTS_PER_SUITE

/-- Concrete passing test (no function pointer) for suite A. -/
def tA1 : rktest_test_t := { suite_name := "A", test_name := "t1", func := none }

/-- Concrete failing test for suite A (its body calls the fail signal twice). -/
def tA2f : rktest_test_t := { suite_name := "A", test_name := "t2", func := some 2 }

/-- Concrete passing test for suite B (a body that never signals failure). -/
def tB1 : rktest_test_t := { suite_name := "B", test_name := "t1", func := some 0 }

/-- Concrete configuration used by the witnesses. -/
def cfgW : rktest_config :=
  { RKTEST_MAX_NUM_TEST_SUITES := 4, RKTEST_MAX_NUM_TESTS_PER_SUITE := 4 }

/-- Concrete registry used by the witnesses (padding interspersed). -/
def regW : List (Option rktest_test_t) :=
  [none, some tA1, none, some tA2f, some tB1, none]

/-- The environment `setup_test_env cfgW regW` builds. -/
def envW : rktest_environment_t :=
  { test_suites :=
      [{ name := "A", tests := [tA1, tA2f] }, { name := "B", tests := [tB1] }],
    total_num_tests := 3 }

/-- Configuration for the C1 failing input: capacity of one suite with two
tests per suite. -/
def cfgC1 : rktest_config :=
  { RKTEST_MAX_NUM_TEST_SUITES := 1, RKTEST_MAX_NUM_TESTS_PER_SUITE := 2 }

/-- Registry for the C1 failing input: one padding slot, then two tests of
the single suite A — one distinct suite (= the limit), two tests in it
(= the per-suite limit). -/
def regC1 : List (Option rktest_test_t) := [none, some tA1, some tA2f]

/-- Registry for the C2 counterexample: a single slot holding a real
descriptor. -/
def regC2 : List (Option rktest_test_t) := [some tA1]

/-- Registry for the C3 counterexample: exactly the claim's example
(A,t1), (B,t1), (A,t2) as the registry slots, in that order. -/
def regC3 : List (Option rktest_test_t) := [some tA1, some tB1, some tA2f]

/- ------------------------------------------------------------------ -/
/- Theorems.  First: general list lemmas used by the development.     -/
/- ------------------------------------------------------------------ -/

theorem list_getD_lt {α : Type} (l : List α) (d : α) (i : Nat) (h : i < l.length) :
    l.getD i d = l.get ⟨i, h⟩ := by
  induction l generalizing i with
  | nil => simp at h
  | cons a l ih =>
    cases i with
    | zero => rfl
    | succ j => exact ih j (by simpa using h)

theorem list_getD_append_last {α : Type} (l : List α) (a d : α) :
    (l ++ [a]).getD l.length d = a := by
  induction l with
  | nil => rfl
  | cons b l ih => simpa using ih

theorem list_set_append_last {α : Type} (l : List α) (a b : α) :
    (l ++ [a]).set l.length b = l ++ [b] := by
  induction l with
  | nil => rfl
  | cons c l ih => simp [List.set, ih]

theorem list_map_set {α β : Type} (f : α → β) (l : List α) (i : Nat) (b : α) :
    (l.set i b).map f = (l.map f).set i (f b) := by
  induction l generalizing i with
  | nil => rfl
  | cons a l ih =>
    cases i with
    | zero => rfl
    | succ j => simp [List.set, ih]

theorem list_set_get_self {α : Type} (l : List α) (i : Nat) (h : i < l.length) :
    l.set i (l.get ⟨i, h⟩) = l := by
  induction l generalizing i with
  | nil => rfl
  | cons a l ih =>
    cases i with
    | zero => rfl
    | succ j =>
      have h' : j < l.length := by simpa using h
      show a :: l.set j (l.get ⟨j, h'⟩) = a :: l
      rw [ih j h']

theorem list_get_set_eq {α : Type} (l : List α) (i : Nat) (b : α)
    (h : i < (l.set i b).length) : (l.set i b).get ⟨i, h⟩ = b := by
  induction l generalizing i with
  | nil => simp at h
  | cons a l ih =>
    cases i with
    | zero => rfl
    | succ j => exact ih j (by simpa using h)

theorem list_get_set_ne {α : Type} (l : List α) (i j : Nat) (b : α) (hne : i ≠ j)
    (hj : j < l.length) (hj2 : j < (l.set i b).length) :
    (l.set i b).get ⟨j, hj2⟩ = l.get ⟨j, hj⟩ := by
  induction l generalizing i j with
  | nil => simp at hj
  | cons a l ih =>
    cases i with
    | zero =>
      cases j with
      | zero => exact absurd rfl hne
      | succ k => rfl
    | succ i' =>
      cases j with
      | zero => rfl
      | succ k =>
        exact ih i' k (by omega) (by simpa using hj) (by simpa using hj2)

theorem list_get_append_left {α : Type} (l₁ l₂ : List α) (i : Nat)
    (h : i < l₁.length) (h2 : i < (l₁ ++ l₂).length) :
    (l₁ ++ l₂).get ⟨i, h2⟩ = l₁.get ⟨i, h⟩ := by
  induction l₁ generalizing i with
  | nil => simp at h
  | cons a l ih =>
    cases i with
    | zero => rfl
    | succ j => exact ih j (by simpa using h) (by simpa using h2)

theorem list_get_append_last {α : Type} (l : List α) (a : α)
    (h : l.length < (l ++ [a]).length) :
    (l ++ [a]).get ⟨l.length, h⟩ = a := by
  induction l with
  | nil => rfl
  | cons b l ih => simpa using ih

theorem list_sum_set_succ (l : List Nat) (i : Nat) (h : i < l.length) :
    (l.set i (l.get ⟨i, h⟩ + 1)).sum = l.sum + 1 := by
  induction l generalizing i with
  | nil => simp at h
  | cons a l ih =>
    cases i with
    | zero => simp [List.set]; omega
    | succ j =>
      have h' : j < l.length := by simpa using h
      have hs := ih j h'
      show (a :: l.set j (l.get ⟨j, h'⟩ + 1)).sum = (a :: l).sum + 1
      simp only [List.sum_cons]
      omega

theorem list_sum_le_mul (l : List Nat) (b : Nat) (hb : ∀ x ∈ l, x ≤ b) :
    l.sum ≤ l.length * b := by
  induction l with
  | nil => simp
  | cons a l ih =>
    have ha : a ≤ b := hb a (by simp)
    have hl : l.sum ≤ l.length * b := ih (fun x hx => hb x (by simp [hx]))
    simp [Nat.succ_mul]
    omega

theorem list_filter_lengths_add {α : Type} (p : α → Bool) (l : List α) :
    (l.filter p).length + (l.filter (fun a => !(p a))).length = l.length := by
  induction l with
  | nil => rfl
  | cons a l ih =>
    by_cases h : p a
    · simp [List.filter, h]; omega
    · simp [List.filter, h]; omega

/- Lemmas about the registry iteration. -/

theorem dropNones_length (l : List (Option rktest_test_t)) :
    (dropNones l).length ≤ l.length := by
  induction l with
  | nil => simp [dropNones]
  | cons a l ih =>
    cases a with
    | none => simp [dropNones]; omega
    | some t => simp [dropNones]

theorem dropNones_filterMap (l : List (Option rktest_test_t)) :
    (dropNones l).filterMap id = l.filterMap id := by
  induction l with
  | nil => rfl
  | cons a l ih =>
    cases a with
    | none => simpa [dropNones] using ih
    | some t => rfl

theorem setup_loop_eq_fold (cfg : rktest_config) (env : rktest_environment_t)
    (l : List (Option rktest_test_t)) :
    setup_loop cfg env l = setup_fold cfg env (l.filterMap id) := by
  induction l generalizing env with
  | nil => rfl
  | cons a l ih =>
    cases a with
    | none => simpa [setup_loop] using ih env
    | some t =>
      simp only [setup_loop, setup_fold, List.filterMap_cons]
      cases setup_step cfg env t with
      | error e => rfl
      | ok env' => exact ih env'

theorem setup_test_env_eq_fold (cfg : rktest_config)
    (reg : List (Option rktest_test_t)) :
    setup_test_env cfg reg = setup_fold cfg init_env (visited_tests reg) := by
  cases reg with
  | nil => rfl
  | cons a rest =>
    show setup_loop cfg init_env (dropNones rest) = _
    rw [setup_loop_eq_fold, dropNones_filterMap]
    rfl

/- Lemmas about `find_suite_with_name`. -/

theorem find_suite_none (l : List rktest_suite_t) (n : String)
    (h : find_suite_with_name l n = none) : ∀ s ∈ l, s.name ≠ n := by
  induction l with
  | nil => intro s hs; simp at hs
  | cons a l ih =>
    intro s hs
    by_cases ha : a.name = n
    · simp [find_suite_with_name, ha] at h
    · simp [find_suite_with_name, ha] at h
      rcases List.mem_cons.mp hs with rfl | hs
      · exact ha
      · exact ih h s hs

theorem find_suite_some (l : List rktest_suite_t) (n : String) (i : Nat)
    (h : find_suite_with_name l n = some i) :
    ∃ hi : i < l.length, (l.get ⟨i, hi⟩).name = n := by
  induction l generalizing i with
  | nil => simp [find_suite_with_name] at h
  | cons a l ih =>
    by_cases ha : a.name = n
    · have hi : i = 0 := by
        simp [find_suite_with_name, ha] at h
        omega
      subst hi
      exact ⟨by simp, ha⟩
    · simp only [find_suite_with_name, if_neg ha, Option.map_eq_some'] at h
      rcases h with ⟨j, hj, hij⟩
      rcases ih j hj with ⟨hjl, hjn⟩
      subst hij
      exact ⟨by simp; omega, hjn⟩

/- Lemmas about `firstSeen`. -/

theorem firstSeen_aux_mem (l acc : List String) (x : String) :
    x ∈ List.foldl firstSeenStep acc l ↔ x ∈ acc ∨ x ∈ l := by
  induction l generalizing acc with
  | nil => simp
  | cons n l ih =>
    simp only [List.foldl_cons, ih, List.mem_cons]
    unfold firstSeenStep
    by_cases hn : n ∈ acc
    · simp only [if_pos hn]
      constructor
      · rintro (h | h)
        · exact Or.inl h
        · exact Or.inr (Or.inr h)
      · rintro (h | h | h)
        · exact Or.inl h
        · rw [h]; exact Or.inl hn
        · exact Or.inr h
    · simp only [if_neg hn, List.mem_append, List.mem_singleton]
      constructor
      · rintro ((h | h) | h)
        · exact Or.inl h
        · exact Or.inr (Or.inl h)
        · exact Or.inr (Or.inr h)
      · rintro (h | h | h)
        · exact Or.inl (Or.inl h)
        · exact Or.inl (Or.inr h)
        · exact Or.inr h

theorem firstSeen_mem (l : List String) (x : String) :
    x ∈ firstSeen l ↔ x ∈ l := by
  unfold firstSeen
  rw [firstSeen_aux_mem]
  simp

theorem firstSeen_aux_nodup (l acc : List String) (h : acc.Nodup) :
    (List.foldl firstSeenStep acc l).Nodup := by
  induction l generalizing acc with
  | nil => exact h
  | cons n l ih =>
    simp only [List.foldl_cons]
    apply ih
    unfold firstSeenStep
    by_cases hn : n ∈ acc
    · simpa [hn] using h
    · simp only [if_neg hn]
      rw [List.nodup_append]
      exact ⟨h, List.nodup_singleton n, by simpa using fun hx => hn hx⟩

theorem firstSeen_nodup (l : List String) : (firstSeen l).Nodup :=
  firstSeen_aux_nodup l [] List.nodup_nil

theorem firstSeen_append_one (l : List String) (n : String) :
    firstSeen (l ++ [n]) = firstSeenStep (firstSeen l) n := by
  unfold firstSeen
  rw [List.foldl_append]
  rfl

theorem firstSeen_toFinset (l : List String) :
    (firstSeen l).toFinset = l.toFinset := by
  apply Finset.ext
  intro x
  simp [firstSeen_mem]

theorem firstSeen_length (l : List String) :
    (firstSeen l).length = l.toFinset.card := by
  rw [← firstSeen_toFinset]
  exact (List.toFinset_card_of_nodup (firstSeen_nodup l)).symm

theorem list_get_map {α β : Type} (f : α → β) (l : List α) (i : Nat)
    (h : i < (l.map f).length) (h2 : i < l.length) :
    (l.map f).get ⟨i, h⟩ = f (l.get ⟨i, h2⟩) := by
  induction l generalizing i with
  | nil => simp at h2
  | cons a l ih =>
    cases i with
    | zero => rfl
    | succ j => exact ih j (by simpa using h) (by simpa using h2)

theorem nodup_get_ne {α : Type} (l : List α) (hnd : l.Nodup) (i j : Nat)
    (hi : i < l.length) (hj : j < l.length) (hne : i ≠ j) :
    l.get ⟨i, hi⟩ ≠ l.get ⟨j, hj⟩ := by
  intro hEq
  have hinj := List.nodup_iff_injective_get.mp hnd hEq
  have : i = j := by
    have := Fin.mk.injEq i hi j hj ▸ hinj
    simpa using hinj
  exact hne this

/-- Core preservation lemma: one successful iteration of the builder loop
body extends the invariant by the processed descriptor. -/
theorem setup_step_inv (cfg : rktest_config) (P : List rktest_test_t)
    (env env' : rktest_environment_t) (t : rktest_test_t)
    (hI : EnvInv cfg P env) (h : setup_step cfg env t = Except.ok env') :
    EnvInv cfg (P ++ [t]) env' := by
  obtain ⟨h1, h2, h3, h3s, h4, h5⟩ := hI
  have hnodup : (env.test_suites.map (fun s => s.name)).Nodup := by
    rw [h1]; exact firstSeen_nodup _
  by_cases hmax : env.test_suites.length = cfg.RKTEST_MAX_NUM_TEST_SUITES
  · simp [setup_step, hmax] at h
  · rcases hfind : find_suite_with_name env.test_suites t.suite_name with _ | i
    · -- no suite with this name yet: add_new_suite
      have hnotmem : t.suite_name ∉ env.test_suites.map (fun s => s.name) := by
        intro hmem
        rcases List.mem_map.mp hmem with ⟨s, hs, hsn⟩
        exact find_suite_none _ _ hfind s hs hsn
      have hnotP : t.suite_name ∉ P.map (fun u => u.suite_name) := by
        intro hmem
        apply hnotmem
        rw [h1, firstSeen_mem]
        exact hmem
      have hfilterP :
          P.filter (fun u => decide (u.suite_name = t.suite_name)) = [] := by
        rw [List.filter_eq_nil]
        intro u hu
        simp only [decide_eq_true_eq]
        intro hx
        exact hnotP (List.mem_map.mpr ⟨u, hu, hx⟩)
      simp only [setup_step, if_neg hmax, find_or_add_suite, hfind,
        add_new_suite] at h
      rw [list_getD_append_last] at h
      simp only [List.length_nil] at h
      by_cases hzero : (0 : Nat) = cfg.RKTEST_MAX_NUM_TESTS_PER_SUITE
      · rw [if_pos hzero] at h
        simp at h
      · rw [if_neg hzero] at h
        rw [list_set_append_last] at h
        simp only [List.nil_append] at h
        injection h with hx
        subst hx
        refine ⟨?_, ?_, ?_, ?_, ?_, ?_⟩
        · show (env.test_suites ++ [({ name := t.suite_name, tests := [t] } : rktest_suite_t)]).map
              (fun s => s.name) = _
          simp only [List.map_append, List.map_cons, List.map_nil]
          rw [firstSeen_append_one]
          unfold firstSeenStep
          rw [if_neg (by rw [← h1]; exact hnotmem)]
          rw [h1]
        · intro j hj
          have hj' : j < env.test_suites.length + 1 := by simpa using hj
          by_cases hjl : j < env.test_suites.length
          · have hget : (env.test_suites ++
                [({ name := t.suite_name, tests := [t] } : rktest_suite_t)]).get ⟨j, hj⟩
                = env.test_suites.get ⟨j, hjl⟩ :=
              list_get_append_left _ _ j hjl hj
            rw [hget, List.filter_append, h2 j hjl]
            have hne : ¬ t.suite_name = env.test_suites[j].name := by
              intro hx
              have hmem : env.test_suites[j] ∈ env.test_suites := by
                have := List.get_mem env.test_suites j hjl
                simpa using this
              exact find_suite_none _ _ hfind _ hmem hx.symm
            simp [hne]
          · have hjeq : j = env.test_suites.length := by omega
            subst hjeq
            have hget : (env.test_suites ++
                [({ name := t.suite_name, tests := [t] } : rktest_suite_t)]).get
                  ⟨env.test_suites.length, hj⟩
                = ({ name := t.suite_name, tests := [t] } : rktest_suite_t) :=
              list_get_append_last _ _ hj
            rw [hget, List.filter_append]
            show [t] = _ ++ _
            rw [hfilterP]
            simp
        · simp only [List.length_append, List.length_cons, List.length_nil]
          omega
        · show env.total_num_tests + 1 = ((env.test_suites ++
              [({ name := t.suite_name, tests := [t] } : rktest_suite_t)]).map
                (fun s => s.tests.length)).sum
          rw [List.map_append, List.sum_append]
          simp only [List.map_cons, List.map_nil, List.length_cons,
            List.length_nil, List.sum_cons, List.sum_nil]
          omega
        · simp only [List.length_append, List.length_cons, List.length_nil]
          omega
        · intro j hj
          have hjb : j < env.test_suites.length + 1 := by simpa using hj
          by_cases hjl : j < env.test_suites.length
          · have hget : (env.test_suites ++
                [({ name := t.suite_name, tests := [t] } : rktest_suite_t)]).get ⟨j, hj⟩
                = env.test_suites.get ⟨j, hjl⟩ :=
              list_get_append_left _ _ j hjl hj
            rw [hget]
            exact h5 j hjl
          · have hjeq : j = env.test_suites.length := by omega
            subst hjeq
            have hget : (env.test_suites ++
                [({ name := t.suite_name, tests := [t] } : rktest_suite_t)]).get
                  ⟨env.test_suites.length, hj⟩
                = ({ name := t.suite_name, tests := [t] } : rktest_suite_t) :=
              list_get_append_last _ _ hj
            rw [hget]
            show 1 ≤ cfg.RKTEST_MAX_NUM_TESTS_PER_SUITE
            omega
    · -- the suite exists at index i
      rcases find_suite_some _ _ _ hfind with ⟨hi, hname⟩
      have hmemfs : t.suite_name ∈ firstSeen (P.map (fun u => u.suite_name)) := by
        rw [← h1, ← hname]
        exact List.mem_map.mpr ⟨_, List.get_mem env.test_suites i hi, rfl⟩
      simp only [setup_step, if_neg hmax, find_or_add_suite, hfind] at h
      rw [list_getD_lt env.test_suites _ i hi] at h
      by_cases hfull : (env.test_suites.get ⟨i, hi⟩).tests.length
          = cfg.RKTEST_MAX_NUM_TESTS_PER_SUITE
      · rw [if_pos hfull] at h
        simp at h
      · rw [if_neg hfull] at h
        injection h with hx
        subst hx
        refine ⟨?_, ?_, ?_, ?_, ?_, ?_⟩
        · show (env.test_suites.set i _).map (fun s => s.name) = _
          rw [list_map_set]
          show (env.test_suites.map (fun s => s.name)).set i
              ((env.test_suites.get ⟨i, hi⟩).name) = _
          rw [← list_get_map (fun s => s.name) env.test_suites i
              (by simpa using hi) hi]
          rw [list_set_get_self]
          simp only [List.map_append, List.map_cons, List.map_nil]
          rw [firstSeen_append_one]
          unfold firstSeenStep
          rw [if_pos (by simpa using hmemfs)]
          exact h1
        · intro j hj
          have hj' : j < env.test_suites.length := by simpa using hj
          by_cases hij : i = j
          · subst hij
            have hget := list_get_set_eq env.test_suites i
              ({ name := (env.test_suites.get ⟨i, hi⟩).name,
                 tests := (env.test_suites.get ⟨i, hi⟩).tests ++ [t] } : rktest_suite_t) hj
            rw [hget]
            show (env.test_suites.get ⟨i, hi⟩).tests ++ [t] = _
            rw [List.filter_append, ← h2 i hi]
            have hkeep : t.suite_name = env.test_suites[i].name := by
              have := hname.symm
              simpa using this
            simp [hkeep]
          · have hget := list_get_set_ne env.test_suites i j
              ({ name := (env.test_suites.get ⟨i, hi⟩).name,
                 tests := (env.test_suites.get ⟨i, hi⟩).tests ++ [t] } : rktest_suite_t) hij hj' hj
            rw [hget, List.filter_append, h2 j hj']
            have hne : ¬ t.suite_name = env.test_suites[j].name := by
              intro hx
              have hnames : (env.test_suites.map (fun s => s.name)).get
                  ⟨i, by simpa using hi⟩
                  ≠ (env.test_suites.map (fun s => s.name)).get
                    ⟨j, by simpa using hj'⟩ :=
                nodup_get_ne _ hnodup i j (by simpa using hi)
                  (by simpa using hj') hij
              apply hnames
              rw [list_get_map (fun s => s.name) env.test_suites i
                  (by simpa using hi) hi,
                list_get_map (fun s => s.name) env.test_suites j
                  (by simpa using hj') hj']
              rw [hname]
              simpa using hx
            simp [hne]
        · simp only [List.length_append, List.length_cons, List.length_nil]
          omega
        · show env.total_num_tests + 1 = ((env.test_suites.set i _).map
              (fun s => s.tests.length)).sum
          rw [list_map_set]
          show env.total_num_tests + 1 = ((env.test_suites.map
              (fun s => s.tests.length)).set i
                ((env.test_suites.get ⟨i, hi⟩).tests ++ [t]).length).sum
          have hlen : ((env.test_suites.get ⟨i, hi⟩).tests ++ [t]).length
              = (env.test_suites.map (fun s => s.tests.length)).get
                  ⟨i, by simpa using hi⟩ + 1 := by
            rw [list_get_map (fun s => s.tests.length) env.test_suites i
                (by simpa using hi) hi]
            simp
          rw [hlen, list_sum_set_succ]
          omega
        · simp only [List.length_set]
          exact h4
        · intro j hj
          have hj' : j < env.test_suites.length := by simpa using hj
          by_cases hij : i = j
          · subst hij
            have hget := list_get_set_eq env.test_suites i
              ({ name := (env.test_suites.get ⟨i, hi⟩).name,
                 tests := (env.test_suites.get ⟨i, hi⟩).tests ++ [t] } : rktest_suite_t) hj
            rw [hget]
            show ((env.test_suites.get ⟨i, hi⟩).tests ++ [t]).length ≤ _
            rw [List.length_append]
            have := h5 i hi
            simp only [List.length_cons, List.length_nil]
            omega
          · have hget := list_get_set_ne env.test_suites i j
              ({ name := (env.test_suites.get ⟨i, hi⟩).name,
                 tests := (env.test_suites.get ⟨i, hi⟩).tests ++ [t] } : rktest_suite_t) hij hj' hj
            rw [hget]
            exact h5 j hj'

/-- The invariant holds for the empty environment. -/
theorem init_env_inv (cfg : rktest_config) : EnvInv cfg [] init_env := by
  refine ⟨rfl, ?_, rfl, rfl, ?_, ?_⟩
  · intro i h
    simp [init_env] at h
  · simp [init_env]
  · intro i h
    simp [init_env] at h

/-- The invariant is preserved across a successful run of the whole fold. -/
theorem setup_fold_inv (cfg : rktest_config) (ts : List rktest_test_t) :
    ∀ (Q : List rktest_test_t) (env env' : rktest_environment_t),
      EnvInv cfg Q env → setup_fold cfg env ts = Except.ok env' →
      EnvInv cfg (Q ++ ts) env' := by
  induction ts with
  | nil =>
    intro Q env env' hI h
    simp only [setup_fold] at h
    injection h with hx
    subst hx
    simpa using hI
  | cons t ts ih =>
    intro Q env env' hI h
    simp only [setup_fold] at h
    rcases hstep : setup_step cfg env t with e | env1
    · rw [hstep] at h
      simp at h
    · rw [hstep] at h
      have hI1 := setup_step_inv cfg Q env env1 t hI hstep
      have := ih (Q ++ [t]) env1 env' hI1 h
      simpa using this

/-- Master invariant theorem: a successful `setup_test_env` run satisfies
the invariant with respect to the visited descriptors. -/
theorem setup_ok_inv (cfg : rktest_config) (reg : List (Option rktest_test_t))
    (env : rktest_environment_t) (h : setup_test_env cfg reg = Except.ok env) :
    EnvInv cfg (visited_tests reg) env := by
  rw [setup_test_env_eq_fold] at h
  have := setup_fold_inv cfg (visited_tests reg) [] init_env env
    (init_env_inv cfg) h
  simpa using this

/- Lemmas about the executor. -/

theorem run_func_calls_true (n : Nat) : run_func_calls n true = true := by
  induction n with
  | zero => rfl
  | succ m ih => simpa [run_func_calls, rktest_fail_current_test] using ih

/-- A test started with a clean failure flag passes exactly when its body
never signals failure, and `run_test` always leaves the flag reset. -/
theorem run_test_false (t : rktest_test_t) :
    run_test false t = (!(test_fails t), false) := by
  unfold run_test test_fails
  rcases t.func with _ | n
  · rfl
  · cases n with
    | zero => rfl
    | succ m =>
      simp [run_func_calls, rktest_fail_current_test, run_func_calls_true]

/-- Characterisation of the inner executor loop started with a clean flag:
the flag stays clean, passes are counted, failures are appended in
encounter order. -/
theorem run_suite_tests_spec (ts : List rktest_test_t) :
    ∀ (report : rktest_report_t),
      run_suite_tests false report ts
        = (false,
           { num_passed_tests := report.num_passed_tests
               + (ts.filter (fun u => !(test_fails u))).length,
             failed_tests := report.failed_tests ++ ts.filter test_fails }) := by
  induction ts with
  | nil =>
    intro report
    simp [run_suite_tests]
  | cons t ts ih =>
    intro report
    by_cases hf : test_fails t
    · have hrt : run_test false t = (false, false) := by
        rw [run_test_false, hf]
        rfl
      simp only [run_suite_tests, hrt]
      rw [if_neg (by simp)]
      rw [ih]
      simp [List.filter_cons, hf]
    · have hft : test_fails t = false := by
        cases hx : test_fails t
        · rfl
        · exact absurd hx hf
      have hrt : run_test false t = (true, false) := by
        rw [run_test_false, hft]
        rfl
      simp only [run_suite_tests, hrt]
      rw [if_pos trivial]
      rw [ih]
      simp [List.filter_cons, hft]
      omega

/-- Characterisation of the outer executor loop started with a clean flag. -/
theorem run_suites_spec (ss : List rktest_suite_t) :
    ∀ (report : rktest_report_t),
      run_suites false report ss
        = (false,
           { num_passed_tests := report.num_passed_tests
               + (((ss.map (fun s => s.tests)).flatten.filter
                     (fun u => !(test_fails u)))).length,
             failed_tests := report.failed_tests
               ++ (ss.map (fun s => s.tests)).flatten.filter test_fails }) := by
  induction ss with
  | nil =>
    intro report
    simp [run_suites]
  | cons s ss ih =>
    intro report
    simp only [run_suites, run_suite_tests_spec]
    rw [ih]
    simp only [List.map_cons, List.flatten_cons, List.filter_append,
      List.length_append, List.append_assoc]
    simp only [Prod.mk.injEq, rktest_report_t.mk.injEq, true_and, and_true]
    omega

/-- `run_all_tests` on a clean flag: the flag ends clean, passes are the
non-failing tests, and the failed list is exactly the failing tests in
execution order. -/
theorem run_all_tests_spec (env : rktest_environment_t) :
    run_all_tests false env
      = (false,
         { num_passed_tests :=
             ((tests_in_run_order env).filter (fun u => !(test_fails u))).length,
           failed_tests := (tests_in_run_order env).filter test_fails }) := by
  unfold run_all_tests tests_in_run_order
  rw [run_suites_spec]
  simp

/-- The number of visited descriptors is the length of the execution order
of a successfully built environment. -/
theorem built_env_total (cfg : rktest_config) (reg : List (Option rktest_test_t))
    (env : rktest_environment_t) (h : setup_test_env cfg reg = Except.ok env) :
    env.total_num_tests = (tests_in_run_order env).length := by
  obtain ⟨h1, h2, h3, h3s, h4, h5⟩ := setup_ok_inv cfg reg env h
  rw [h3s]
  unfold tests_in_run_order
  rw [List.length_flatten, List.map_map]
  rfl

/- ------------------------------------------------------------------ -/
/- Claim theorems.                                                    -/
/- ------------------------------------------------------------------ -/

/-- Claim C1 (code bug, evaluation at the failing input): with a capacity of
one suite and two tests per suite, the registry holding a padding slot and
then the two suite-A tests (A,t1), (A,t2) spans exactly one distinct suite
name (equal to the suite limit, hence not exceeding it) and puts exactly two
tests in that suite (equal to the per-suite limit, hence not exceeding it);
the claim therefore requires the build to complete normally, yet
`setup_test_env` terminates fatally with the suite-capacity diagnostic: the
check `num_test_suites == RKTEST_MAX_NUM_TEST_SUITES` runs before
`find_or_add_suite`, so it fires on (A,t2) although suite A already exists
and no new suite would be created. -/
theorem c1_failing_input_eval :
    setup_test_env cfgC1 regC1 = Except.error rktest_fatal_error.too_many_suites ∧
    ((visited_tests regC1).map (fun t => t.suite_name)).toFinset.card
      = cfgC1.RKTEST_MAX_NUM_TEST_SUITES ∧
    ((visited_tests regC1).filter (fun u => decide (u.suite_name = "A"))).length
      = cfgC1.RKTEST_MAX_NUM_TESTS_PER_SUITE := by
  decide

/-- Claim C2, counterexample: a registry consisting of a single slot that
holds a real descriptor has N = 1 non-placeholder descriptors, yet the
built environment does not have `total_num_tests == 1`: the builder's
iterator starts at `skip_until_next_test(&test_data_begin + 1)`, which
increments before dereferencing, so the first registry slot is never
examined and the build returns an environment with zero tests. -/
theorem c2_counterexample :
    (setup_test_env cfgW regC2).map rktest_environment_t.total_num_tests
      ≠ Except.ok 1 := by
  decide

/-- Claim C2 as amended: the builder processes exactly the non-placeholder
descriptors strictly after the first registry slot (that slot is never
examined; in the intended section layout it always holds padding).  For
every registry whose build succeeds, `total_num_tests` is the number of
those visited descriptors, `num_test_suites` is the number of distinct suite
names among them, `total_num_tests` equals the sum of all suites'
`num_tests`, and placeholder slots are skipped without affecting any count
(inserting a padding slot anywhere after the first slot leaves the build
result unchanged). -/
theorem c2_amended_holds (cfg : rktest_config)
    (reg : List (Option rktest_test_t)) (env : rktest_environment_t)
    (x : Option rktest_test_t) (s₁ s₂ : List (Option rktest_test_t))
    (h : setup_test_env cfg reg = Except.ok env) :
    env.total_num_tests = (visited_tests reg).length ∧
    env.num_test_suites
      = ((visited_tests reg).map (fun t => t.suite_name)).toFinset.card ∧
    env.total_num_tests = (env.test_suites.map (fun s => s.num_tests)).sum ∧
    setup_test_env cfg (x :: (s₁ ++ none :: s₂))
      = setup_test_env cfg (x :: (s₁ ++ s₂)) := by
  obtain ⟨h1, h2, h3, h3s, h4, h5⟩ := setup_ok_inv cfg reg env h
  refine ⟨h3, ?_, h3s, ?_⟩
  · show env.test_suites.length = _
    have hlen : env.test_suites.length
        = (env.test_suites.map (fun s => s.name)).length := by
      rw [List.length_map]
    rw [hlen, h1, firstSeen_length]
  · rw [setup_test_env_eq_fold, setup_test_env_eq_fold]
    have hv : visited_tests (x :: (s₁ ++ none :: s₂))
        = visited_tests (x :: (s₁ ++ s₂)) := by
      show (s₁ ++ none :: s₂).filterMap id = (s₁ ++ s₂).filterMap id
      simp [List.filterMap_append]
    rw [hv]

/-- Witness for the amended C2 at a concrete registry with interspersed
padding. -/
theorem c2_amended_holds_witness :
    envW.total_num_tests = (visited_tests regW).length ∧
    envW.num_test_suites
      = ((visited_tests regW).map (fun t => t.suite_name)).toFinset.card ∧
    envW.total_num_tests = (envW.test_suites.map (fun s => s.num_tests)).sum ∧
    setup_test_env cfgW (none :: ([some tA1] ++ none :: [some tB1]))
      = setup_test_env cfgW (none :: ([some tA1] ++ [some tB1])) :=
  c2_amended_holds cfgW regW envW none [some tA1] [some tB1] (by decide)

/-- Claim C3, counterexample: registering (A,t1), (B,t1), (A,t2) as the
three registry slots in that order does not yield suites `[A{t1, t2},
B{t1}]`: the first slot, holding (A,t1), is never examined by the builder,
so the suites come out as `[B{t1}, A{t2}]`. -/
theorem c3_counterexample :
    (setup_test_env cfgW regC3).map (fun e => e.test_suites.map (fun s => s.name))
      ≠ Except.ok ["A", "B"] := by
  decide

/-- Claim C3 as amended: over the descriptors the builder visits (every
non-placeholder slot strictly after the first registry slot), the built
environment lists suites in the order their names are first encountered,
and each suite's tests are exactly the visited descriptors bearing its name,
in encounter order, even when they are not contiguous.  In particular a
registry whose first slot is padding followed by (A,t1), (B,t1), (A,t2)
yields suites [A{t1, t2}, B{t1}]. -/
theorem c3_amended_holds (cfg : rktest_config)
    (reg : List (Option rktest_test_t)) (env : rktest_environment_t) (i : Nat)
    (h : setup_test_env cfg reg = Except.ok env)
    (hi : i < env.test_suites.length) :
    env.test_suites.map (fun s => s.name)
      = firstSeen ((visited_tests reg).map (fun t => t.suite_name)) ∧
    (env.test_suites.getD i { name := "", tests := [] }).tests
      = (visited_tests reg).filter (fun u => decide (u.suite_name
          = (env.test_suites.getD i { name := "", tests := [] }).name)) := by
  obtain ⟨h1, h2, h3, h3s, h4, h5⟩ := setup_ok_inv cfg reg env h
  refine ⟨h1, ?_⟩
  rw [list_getD_lt env.test_suites _ i hi]
  exact h2 i hi

/-- Witness for the amended C3: the concrete registry
[padding, (A,t1), padding, (A,t2), (B,t1), padding] builds suites in
first-seen order A, B with the A-tests in encounter order. -/
theorem c3_amended_holds_witness :
    envW.test_suites.map (fun s => s.name)
      = firstSeen ((visited_tests regW).map (fun t => t.suite_name)) ∧
    (envW.test_suites.getD 0 { name := "", tests := [] }).tests
      = (visited_tests regW).filter (fun u => decide (u.suite_name
          = (envW.test_suites.getD 0 { name := "", tests := [] }).name)) :=
  c3_amended_holds cfgW regW envW 0 (by decide) (by decide)

/-- Claim C4: after a full run over any built environment (started, as every
run is, with a clean failure flag), `num_passed_tests + num_failed_tests =
total_num_tests`, and `failed_tests` is exactly the list of failing
descriptors in the order they were encountered during execution. -/
theorem c4_report_accounting (cfg : rktest_config)
    (reg : List (Option rktest_test_t)) (env : rktest_environment_t)
    (h : setup_test_env cfg reg = Except.ok env) :
    (run_all_tests false env).2.num_passed_tests
        + (run_all_tests false env).2.num_failed_tests = env.total_num_tests ∧
    (run_all_tests false env).2.failed_tests
      = (tests_in_run_order env).filter test_fails := by
  have hadd := list_filter_lengths_add test_fails (tests_in_run_order env)
  have htot := built_env_total cfg reg env h
  refine ⟨?_, ?_⟩
  · rw [run_all_tests_spec]
    show ((tests_in_run_order env).filter (fun u => !(test_fails u))).length
        + ((tests_in_run_order env).filter test_fails).length
        = env.total_num_tests
    omega
  · rw [run_all_tests_spec]

/-- Witness for C4 at the concrete environment built from `regW`: two tests
pass, one fails, and the failed list holds that descriptor. -/
theorem c4_report_accounting_witness :
    (run_all_tests false envW).2.num_passed_tests
        + (run_all_tests false envW).2.num_failed_tests = envW.total_num_tests ∧
    (run_all_tests false envW).2.failed_tests
      = (tests_in_run_order envW).filter test_fails :=
  c4_report_accounting cfgW regW envW (by decide)

/-- Claim C5: `rktest_main` returns (besides the final flag state) the
boolean `tests_passed = (num_failed_tests == 0)`, which is true exactly when
the failed list is empty, equivalently exactly when every executed test
passed (`num_passed_tests = total_num_tests`). -/
theorem c5_main_status (cfg : rktest_config)
    (reg : List (Option rktest_test_t)) (env : rktest_environment_t)
    (h : setup_test_env cfg reg = Except.ok env) :
    rktest_main cfg false reg
      = Except.ok (decide ((run_all_tests false env).2.num_failed_tests = 0),
          (run_all_tests false env).1) ∧
    ((run_all_tests false env).2.num_failed_tests = 0
      ↔ (run_all_tests false env).2.num_passed_tests = env.total_num_tests) := by
  have hadd := list_filter_lengths_add test_fails (tests_in_run_order env)
  have htot := built_env_total cfg reg env h
  refine ⟨?_, ?_⟩
  · simp [rktest_main, h]
  · rw [run_all_tests_spec]
    show ((tests_in_run_order env).filter test_fails).length = 0
        ↔ ((tests_in_run_order env).filter (fun u => !(test_fails u))).length
          = env.total_num_tests
    omega

/-- Witness for C5 at the concrete run over `regW` (one failing test, so
the returned status is `false`). -/
theorem c5_main_status_witness :
    rktest_main cfgW false regW
      = Except.ok (decide ((run_all_tests false envW).2.num_failed_tests = 0),
          (run_all_tests false envW).1) ∧
    ((run_all_tests false envW).2.num_failed_tests = 0
      ↔ (run_all_tests false envW).2.num_passed_tests = envW.total_num_tests) :=
  c5_main_status cfgW regW envW (by decide)

/-- Claim C6: `rktest_fail_current_test` is idempotent on the failure flag;
within one invocation, a body calling it n ≥ 1 times behaves exactly like a
body calling it m ≥ 1 times (in particular once); started with a clean flag
the test is reported failed exactly when the signal was raised at least
once, and passes when it was never raised. -/
theorem c6_fail_idempotent (g : Bool) (s nm : String) (n m : Nat)
    (hn : 0 < n) (hm : 0 < m) :
    rktest_fail_current_test (rktest_fail_current_test g)
      = rktest_fail_current_test g ∧
    run_test g { suite_name := s, test_name := nm, func := some n }
      = run_test g { suite_name := s, test_name := nm, func := some m } ∧
    (run_test false { suite_name := s, test_name := nm, func := some n }).1
      = false ∧
    (run_test false { suite_name := s, test_name := nm, func := some 0 }).1
      = true := by
  have hpos : ∀ (k : Nat) (g' : Bool), run_func_calls (k + 1) g' = true := by
    intro k g'
    show run_func_calls k (rktest_fail_current_test g') = true
    exact run_func_calls_true k
  refine ⟨rfl, ?_, ?_, rfl⟩
  · cases n with
    | zero => omega
    | succ k =>
      cases m with
      | zero => omega
      | succ k' =>
        unfold run_test
        simp only [hpos]
  · cases n with
    | zero => omega
    | succ k =>
      unfold run_test
      simp only [hpos]
      rfl

/-- Witness for C6: three calls behave like one; three calls fail the test;
zero calls pass it. -/
theorem c6_fail_idempotent_witness :
    rktest_fail_current_test (rktest_fail_current_test false)
      = rktest_fail_current_test false ∧
    run_test false { suite_name := "A", test_name := "t1", func := some 3 }
      = run_test false { suite_name := "A", test_name := "t1", func := some 1 } ∧
    (run_test false { suite_name := "A", test_name := "t1", func := some 3 }).1
      = false ∧
    (run_test false { suite_name := "A", test_name := "t1", func := some 0 }).1
      = true :=
  c6_fail_idempotent false "A" "t1" 3 1 (by decide) (by decide)

/-- Claim C7: a descriptor with an absent function pointer executes as a
pass, not an error: `run_test` returns true for it, and running it inside
the executor loop increments `num_passed_tests` and leaves the failed list
unchanged. -/
theorem c7_null_func_passes (s nm : String) (report : rktest_report_t) :
    run_test false { suite_name := s, test_name := nm, func := none }
      = (true, false) ∧
    run_suite_tests false report [{ suite_name := s, test_name := nm, func := none }]
      = (false,
         { report with num_passed_tests := report.num_passed_tests + 1 }) := by
  exact ⟨rfl, rfl⟩

/-- Claim C8: `run_test` always hands back a cleared failure flag, a whole
run started with a clean flag ends with a clean flag (so nothing leaks into
a subsequent run), and because each `run_test` receives the flag the
previous one returned, every test's outcome depends only on its own body:
the failed list equals the per-test failure predicate filtered over the
execution order. -/
theorem c8_flag_reset (g : Bool) (t : rktest_test_t)
    (env : rktest_environment_t) :
    (run_test g t).2 = false ∧
    (run_all_tests false env).1 = false ∧
    (run_all_tests false env).2.failed_tests
      = (tests_in_run_order env).filter test_fails := by
  refine ⟨rfl, ?_, ?_⟩
  · rw [run_all_tests_spec]
  · rw [run_all_tests_spec]

/-- Claim C9: every built environment respects all capacity bounds — the
suite count is at most RKTEST_MAX_NUM_TEST_SUITES, each suite's test count
at most RKTEST_MAX_NUM_TESTS_PER_SUITE, the total test count at most
RKTEST_MAX_NUM_TESTS, and a run's failed list never exceeds
RKTEST_MAX_NUM_TESTS entries — so every array write of `setup_test_env`
(guarded by the capacity checks) and of `run_all_tests` stays in bounds. -/
theorem c9_bounds (cfg : rktest_config) (reg : List (Option rktest_test_t))
    (env : rktest_environment_t) (i : Nat)
    (h : setup_test_env cfg reg = Except.ok env)
    (hi : i < env.test_suites.length) :
    env.num_test_suites ≤ cfg.RKTEST_MAX_NUM_TEST_SUITES ∧
    (env.test_suites.getD i { name := "", tests := [] }).num_tests
      ≤ cfg.RKTEST_MAX_NUM_TESTS_PER_SUITE ∧
    env.total_num_tests ≤ RKTEST_MAX_NUM_TESTS cfg ∧
    (run_all_tests false env).2.num_failed_tests ≤ RKTEST_MAX_NUM_TESTS cfg := by
  obtain ⟨h1, h2, h3, h3s, h4, h5⟩ := setup_ok_inv cfg reg env h
  have hsum : env.total_num_tests ≤ RKTEST_MAX_NUM_TESTS cfg := by
    rw [h3s]
    have hb : ∀ x ∈ env.test_suites.map (fun s => s.tests.length),
        x ≤ cfg.RKTEST_MAX_NUM_TESTS_PER_SUITE := by
      intro x hx
      rcases List.mem_map.mp hx with ⟨s, hs, rfl⟩
      rcases List.mem_iff_get.mp hs with ⟨⟨j, hj⟩, rfl⟩
      exact h5 j hj
    have hle := list_sum_le_mul _ cfg.RKTEST_MAX_NUM_TESTS_PER_SUITE hb
    rw [List.length_map] at hle
    calc (env.test_suites.map (fun s => s.tests.length)).sum
        ≤ env.test_suites.length * cfg.RKTEST_MAX_NUM_TESTS_PER_SUITE := hle
      _ ≤ cfg.RKTEST_MAX_NUM_TEST_SUITES * cfg.RKTEST_MAX_NUM_TESTS_PER_SUITE :=
          Nat.mul_le_mul_right _ h4
  refine ⟨h4, ?_, hsum, ?_⟩
  · rw [list_getD_lt env.test_suites _ i hi]
    exact h5 i hi
  · rw [run_all_tests_spec]
    show ((tests_in_run_order env).filter test_fails).length ≤ _
    have hfle := List.length_filter_le test_fails (tests_in_run_order env)
    have htot := built_env_total cfg reg env h
    omega

/-- Witness for C9 at the concrete environment built from `regW`. -/
theorem c9_bounds_witness :
    envW.num_test_suites ≤ cfgW.RKTEST_MAX_NUM_TEST_SUITES ∧
    (envW.test_suites.getD 0 { name := "", tests := [] }).num_tests
      ≤ cfgW.RKTEST_MAX_NUM_TESTS_PER_SUITE ∧
    envW.total_num_tests ≤ RKTEST_MAX_NUM_TESTS cfgW ∧
    (run_all_tests false envW).2.num_failed_tests ≤ RKTEST_MAX_NUM_TESTS cfgW :=
  c9_bounds cfgW regW envW 0 (by decide) (by decide)

/-- Claim C10: on any non-empty remaining slot list, `skip_until_next_test`
strictly shrinks the remaining registry suffix (it advances the iterator by
at least one slot toward the end marker), and the descriptors the builder
loop visits are fewer than the registry slots — each slot is visited at most
once and the loop reaches the end. -/
theorem c10_skip_progress (l : List (Option rktest_test_t)) (h : l ≠ []) :
    (skip_until_next_test l).length < l.length ∧
    (visited_tests l).length < l.length := by
  cases l with
  | nil => exact absurd rfl h
  | cons a rest =>
    refine ⟨?_, ?_⟩
    · show (dropNones rest).length < rest.length + 1
      have := dropNones_length rest
      omega
    · show (rest.filterMap id).length < rest.length + 1
      have := List.length_filterMap_le id rest
      omega

/-- Witness for C10 at the concrete registry `regW`. -/
theorem c10_skip_progress_witness :
    (skip_until_next_test regW).length < regW.length ∧
    (visited_tests regW).length < regW.length :=
  c10_skip_progress regW (by decide)
